import Mathlib

/-!
Verification of the command-construction / multi-step execution planner and
the caching layer of the 3d-asset-processing MCP adapter.

The definitions below are a shallow embedding of the TypeScript sources:
* `GltfTransformExecutor` (planExecutionSteps / executeMultiStep / buildCommand
  and the stderr classification in `execute`),
* `desiredExtFrom` / `normalizeEncoder` from `src/utils/gltf-constants.ts`,
* `CacheManager.generateKey` from the cache utility (SHA-256 over the JSON
  serialization of the parameter object, truncated to 16 hex characters),
* `GltfProcessor.process` (cache-consulting processing entry point),
* the output-path normalization in the `gltf-transform` MCP tool wrapper.

JavaScript idioms are modelled explicitly: optional fields are `Option`,
falsiness of an optional string (`undefined` or `""`) is `jsStrFalsy`,
`a || b` on strings is `jsOrElse`, and in-place mutation of a request object
is modelled by returning the object's post-call state.
-/

/-! ## JavaScript string / option helpers -/

/-- JS falsiness of an optional string: `undefined` and `""` are falsy. -/
def jsStrFalsy : Option String → Bool
  | none => true
  | some s => s == ""

/-- JS `a || b` where `a` is an optional string: yields `b` when `a` is falsy. -/
def jsOrElse (a : Option String) (b : String) : String :=
  if jsStrFalsy a then b else a.getD b

/-- ASCII lower-casing of a character (JS `/i` regex flag on ASCII input). -/
def toLowerAscii (c : Char) : Char :=
  if 'A' ≤ c ∧ c ≤ 'Z' then Char.ofNat (c.toNat + 32) else c

/-- ASCII lower-casing of a string. -/
def strToLowerAscii (s : String) : String :=
  String.mk (s.toList.map toLowerAscii)

/-- `pat` occurs as a contiguous substring of `l`. -/
def listContainsSub (l pat : List Char) : Bool :=
  if l.length < pat.length then false
  else if pat.isPrefixOf l then true
  else
    match l with
    | [] => pat.isEmpty
    | _ :: t => listContainsSub t pat

/-- `s` contains `pat` as a substring (both as raw character lists). -/
def strContainsSub (s pat : String) : Bool :=
  listContainsSub s.toList pat.toList

/-- `suffix` is a suffix of `s` (kernel-reducible `String.endsWith`). -/
def strEndsWith (s suffix : String) : Bool :=
  suffix.toList.isSuffixOf s.toList

/-- Drop the last `n` characters (kernel-reducible `String.dropRight`). -/
def strDropRight (s : String) (n : Nat) : String :=
  String.mk (s.toList.take (s.toList.length - n))

/-! ## Node `path` (posix) helpers

These model the documented behaviour of `path.basename`, `path.extname`,
`path.dirname` and binary `path.join` on the path shapes the executor
produces (no `..` segments; `join` only normalizes a leading `"."`
directory, which is what `path.join(path.dirname(p), f)` can produce). -/

/-- Index of the last occurrence of `c` in `cs`. -/
def lastIdxOf (c : Char) (cs : List Char) : Option Nat :=
  match cs.reverse.findIdx? (· == c) with
  | none => none
  | some j => some (cs.length - 1 - j)

/-- Node `path.basename(p)`: last segment, trailing slashes trimmed. -/
def pathBasename (p : String) : String :=
  let trimmed := (p.toList.reverse.dropWhile (· == '/')).reverse
  String.mk ((trimmed.reverse.takeWhile (· ≠ '/')).reverse)

/-- Node `path.extname(p)`: from the last `'.'` of the basename to the end;
empty when there is no dot or the only dot leads a hidden file. -/
def pathExtname (p : String) : String :=
  let b := (pathBasename p).toList
  match lastIdxOf '.' b with
  | none => ""
  | some 0 => ""
  | some i => String.mk (b.drop i)

/-- Node `path.basename(p, ext)`: basename with the suffix `ext` stripped
when it is a strict suffix (Node leaves the name intact when it equals
`ext` exactly). -/
def pathBasenameExt (p ext : String) : String :=
  let b := pathBasename p
  if ext ≠ "" ∧ b ≠ ext ∧ strEndsWith b ext then strDropRight b ext.length else b

/-- Node `path.dirname(p)`. -/
def pathDirname (p : String) : String :=
  let cs := p.toList
  let trimmed := (cs.reverse.dropWhile (· == '/')).reverse
  if trimmed.isEmpty then (if cs.isEmpty then "." else "/")
  else
    match lastIdxOf '/' trimmed with
    | none => "."
    | some 0 => "/"
    | some i => String.mk (trimmed.take i)

/-- Binary Node `path.join(d, f)` for the shapes produced by `pathDirname`:
joining onto `"."` normalizes away the leading dot segment. -/
def pathJoin (d f : String) : String :=
  if d = "" then f
  else if d = "." then f
  else if strEndsWith d "/" then d ++ f
  else d ++ "/" ++ f

/-! ## `src/utils/gltf-constants.ts` -/

def GLB_EXT : String := ".glb"
def GLTF_EXT : String := ".gltf"

inductive OutputFormat where
  | glb
  | gltf
  deriving Repr, DecidableEq

/-- `desiredExtFrom` from `gltf-constants.ts`:
`opts.outputFormat === 'glb' || opts.binary` selects `.glb`, else `.gltf`. -/
def desiredExtFrom (outputFormat : Option OutputFormat) (binary : Bool) : String :=
  if outputFormat = some .glb ∨ binary then GLB_EXT else GLTF_EXT

/-! ## The `GltfTransformExecOptions` interface (multi-step executor) -/

/-- JS value of the legacy `textureCompress?: boolean | string` field. -/
inductive TexCompressVal where
  | tcFalse
  | tcTrue
  | tcStr (s : String)
  deriving Repr, DecidableEq

/-- Truthiness of `textureCompress` (a JS empty string is falsy). -/
def TexCompressVal.truthy : TexCompressVal → Bool
  | .tcFalse => false
  | .tcTrue => true
  | .tcStr s => s ≠ ""

/-- `resize?: { width?: number; height?: number }`. -/
structure ResizeOpts where
  width : Option Nat := none
  height : Option Nat := none
  deriving Repr, DecidableEq

/-- The executor's options interface. Booleans model `boolean | undefined`
(both `false` and `undefined` are falsy and are only read for truthiness).
`dracoOptions` entries carry `String(v)` for non-null values and `none` for
`null`/`undefined` values; `simplifyRatio` carries `String(ratio)` when
`simplifyOptions?.ratio != null`. The unused `textureOptions` record is not
consulted by any modelled function and is omitted. The source field
`instance` is a reserved word in Lean and is embedded as `instanceFlag`. -/
structure GltfTransformExecOptions where
  inputPath : String := ""
  outputPath : Option String := none
  outputFormat : Option OutputFormat := none
  binary : Bool := false
  inspect : Bool := false
  validate : Bool := false
  optimize : Bool := false
  copy : Bool := false
  merge : List String := []
  partition : Bool := false
  dedup : Bool := false
  prune : Bool := false
  gzip : Bool := false
  center : Bool := false
  instanceFlag : Bool := false
  flatten : Bool := false
  join : Bool := false
  draco : Bool := false
  dracoOptions : Option (List (String × Option String)) := none
  meshopt : Bool := false
  quantize : Bool := false
  dequantize : Bool := false
  weld : Bool := false
  unweld : Bool := false
  tangents : Bool := false
  unwrap : Bool := false
  reorder : Bool := false
  simplify : Bool := false
  simplifyRatio : Option String := none
  metalrough : Bool := false
  palette : Bool := false
  unlit : Bool := false
  resize : Option ResizeOpts := none
  etc1s : Bool := false
  uastc : Bool := false
  ktxdecompress : Bool := false
  ktxfix : Bool := false
  avif : Bool := false
  webp : Bool := false
  png : Bool := false
  jpeg : Bool := false
  resample : Bool := false
  sequence : Bool := false
  sparse : Bool := false
  vertexLayout : Option String := none
  textureCompress : TexCompressVal := .tcFalse
  textureFormat : Option String := none
  compress : Option String := none
  deriving Repr, DecidableEq

/-! ## `planExecutionSteps` -/

/-- `GltfTransformExecutor.planExecutionSteps`: inspection short-circuits,
then the operation flags are scanned in the source's fixed order, each set
flag appending its step; an empty scan falls back to `["copy"]`. -/
def planExecutionSteps (o : GltfTransformExecOptions) : List String :=
  if o.inspect then ["inspect"]
  else if o.validate then ["validate"]
  else
    let steps : List String :=
      (if o.meshopt then ["meshopt"] else []) ++
      (if o.draco then ["draco"] else []) ++
      (if o.quantize then ["quantize"] else []) ++
      (if o.weld then ["weld"] else []) ++
      (if o.simplify then ["simplify"] else []) ++
      (if o.etc1s then ["etc1s"] else []) ++
      (if o.uastc then ["uastc"] else []) ++
      (if o.webp then ["webp"] else []) ++
      (if o.avif then ["avif"] else []) ++
      (if o.png then ["png"] else []) ++
      (if o.jpeg then ["jpeg"] else []) ++
      (if o.optimize then ["optimize"] else []) ++
      (if o.dedup then ["dedup"] else []) ++
      (if o.prune then ["prune"] else [])
    if steps.isEmpty then ["copy"] else steps

/-- The planner's fixed scan order, as stated by the spec. -/
def plannerScanOrder : List String :=
  ["meshopt", "draco", "quantize", "weld", "simplify", "etc1s", "uastc",
   "webp", "avif", "png", "jpeg", "optimize", "dedup", "prune"]

/-- Whether the operation flag named `n` is set in `o` (the fourteen flags
the planner scans). -/
def plannerFlagSet (o : GltfTransformExecOptions) : String → Bool
  | "meshopt" => o.meshopt
  | "draco" => o.draco
  | "quantize" => o.quantize
  | "weld" => o.weld
  | "simplify" => o.simplify
  | "etc1s" => o.etc1s
  | "uastc" => o.uastc
  | "webp" => o.webp
  | "avif" => o.avif
  | "png" => o.png
  | "jpeg" => o.jpeg
  | "optimize" => o.optimize
  | "dedup" => o.dedup
  | "prune" => o.prune
  | _ => false

/-- Spec-side restatement of the planner for the refinement comparison of
claim C1: the plan is the subsequence of the fixed ordered flag list
consisting of the flags that are set, with the `inspect`/`validate`/`copy`
special cases. -/
def planSpecC1 (o : GltfTransformExecOptions) : List String :=
  if o.inspect then ["inspect"]
  else if o.validate then ["validate"]
  else
    let fl := plannerScanOrder.filter (fun n => plannerFlagSet o n)
    if fl.isEmpty then ["copy"] else fl

/-! ## `buildCommand` -/

/-- The legacy texture-compress fallback of `buildCommand`'s primary-command
chain: `String(options.textureFormat || '').toLowerCase()` dispatched over
the known encoder names, defaulting to `webp`. -/
def legacyTextureCommand (o : GltfTransformExecOptions) : String :=
  let fmt := strToLowerAscii (jsOrElse o.textureFormat "")
  if fmt = "jpeg" ∨ fmt = "jpg" then "jpeg"
  else if fmt = "png" then "png"
  else if fmt = "avif" then "avif"
  else if fmt = "etc1s" then "etc1s"
  else if fmt = "uastc" then "uastc"
  else "webp"

/-- The primary-command selection chain of
`GltfTransformExecutor.buildCommand` (the long `if/else-if` chain after the
`inspect`/`validate` early returns), in source order. -/
def selectPrimaryCommand (o : GltfTransformExecOptions) : String :=
  if o.optimize then "optimize"
  else if !o.merge.isEmpty then "merge"
  else if o.draco then "draco"
  else if o.meshopt then "meshopt"
  else if o.simplify then "simplify"
  else if o.weld then "weld"
  else if o.unweld then "unweld"
  else if o.quantize then "quantize"
  else if o.dequantize then "dequantize"
  else if o.tangents then "tangents"
  else if o.unwrap then "unwrap"
  else if o.reorder then "reorder"
  else if o.center then "center"
  else if o.instanceFlag then "instance"
  else if o.flatten then "flatten"
  else if o.join then "join"
  else if o.metalrough then "metalrough"
  else if o.palette then "palette"
  else if o.unlit then "unlit"
  else if o.resize.isSome then "resize"
  else if o.etc1s then "etc1s"
  else if o.uastc then "uastc"
  else if o.ktxdecompress then "ktxdecompress"
  else if o.ktxfix then "ktxfix"
  else if o.avif then "avif"
  else if o.webp then "webp"
  else if o.png then "png"
  else if o.jpeg then "jpeg"
  else if o.resample then "resample"
  else if o.sequence then "sequence"
  else if o.sparse then "sparse"
  else if o.dedup then "dedup"
  else if o.prune then "prune"
  else if o.partition then "partition"
  else if o.gzip then "gzip"
  else if o.textureCompress.truthy then legacyTextureCommand o
  else "copy"

/-- Flags pushed inside `buildCommand`'s `optimize` branch
(`--compress` and `--texture-compress`). -/
def optimizeBranchFlags (o : GltfTransformExecOptions) : List String :=
  (match o.compress with
   | some c => if c ≠ "" then ["--compress", c] else []
   | none => []) ++
  (match o.textureCompress with
   | .tcTrue => ["--texture-compress", "webp"]
   | .tcStr s => if s ≠ "" then ["--texture-compress", s] else []
   | .tcFalse => [])

/-- `--<key> String(v)` pairs for the non-null `dracoOptions` entries, in
insertion order. -/
def dracoFlags : Option (List (String × Option String)) → List String
  | none => []
  | some entries =>
    entries.foldr
      (fun kv acc => match kv.2 with
        | none => acc
        | some v => ("--" ++ kv.1) :: v :: acc) []

/-- `--width`/`--height` flags for a truthy (non-zero) resize dimension. -/
def resizeFlags : Option ResizeOpts → List String
  | none => []
  | some r =>
    (match r.width with
     | some w => if w ≠ 0 then ["--width", toString w] else []
     | none => []) ++
    (match r.height with
     | some h => if h ≠ 0 then ["--height", toString h] else []
     | none => [])

/-- The output path computed inside `buildCommand`:
`options.outputPath || path.join(dirName, baseName + '_transformed' + desiredExt)`. -/
def buildCommandOutputPath (o : GltfTransformExecOptions) : String :=
  let inputExt := pathExtname o.inputPath
  let baseName := pathBasenameExt o.inputPath inputExt
  let dirName := pathDirname o.inputPath
  let desiredExt := desiredExtFrom o.outputFormat o.binary
  jsOrElse o.outputPath (pathJoin dirName (baseName ++ "_transformed" ++ desiredExt))

/-- Wrap a path argument in (verbatim) double quotes. -/
def quoteArg (s : String) : String := "\"" ++ s ++ "\""

/-- `GltfTransformExecutor.buildCommand`: early `inspect`/`validate` forms,
primary-command selection, command-specific flags (the `optimize` branch
pushes its flags during selection, which is equivalent to guarding them on
`options.optimize`), the global `--vertex-layout` flag, and the
merge-specific multi-input argument layout. Fails when the input path is
falsy. -/
def buildCommand (o : GltfTransformExecOptions) : Except String String :=
  if o.inputPath = "" then .error "Input path is required."
  else if o.inspect then .ok (String.intercalate " " ["gltf-transform", "inspect", quoteArg o.inputPath])
  else if o.validate then .ok (String.intercalate " " ["gltf-transform", "validate", quoteArg o.inputPath])
  else
    let outputPath := buildCommandOutputPath o
    let primary := selectPrimaryCommand o
    let flags : List String :=
      (if o.optimize then optimizeBranchFlags o else []) ++
      (if primary = "simplify" then
        (match o.simplifyRatio with
         | some r => ["--ratio", r]
         | none => []) else []) ++
      (if primary = "draco" then dracoFlags o.dracoOptions else []) ++
      (if primary = "resize" then resizeFlags o.resize else []) ++
      (match o.vertexLayout with
       | some v => if v ≠ "" then ["--vertex-layout", v] else []
       | none => [])
    let parts : List String :=
      ["gltf-transform", primary] ++
      (if primary = "merge" then
        quoteArg o.inputPath :: (o.merge.map quoteArg ++ [quoteArg outputPath])
      else [quoteArg o.inputPath, quoteArg outputPath]) ++
      flags
    .ok (String.intercalate " " parts)

/-! ## Multi-step orchestration (`executeMultiStep`) -/

/-- The per-step option override of `executeMultiStep`: the original request
spread with this step's input/output paths and the planner's fourteen
operation flags cleared except the one matching `step`. -/
def mkStepOptions (o : GltfTransformExecOptions) (currentInput stepOutput step : String) :
    GltfTransformExecOptions :=
  { o with
    inputPath := currentInput
    outputPath := some stepOutput
    meshopt := step == "meshopt"
    draco := step == "draco"
    etc1s := step == "etc1s"
    uastc := step == "uastc"
    webp := step == "webp"
    avif := step == "avif"
    png := step == "png"
    jpeg := step == "jpeg"
    optimize := step == "optimize"
    dedup := step == "dedup"
    prune := step == "prune"
    quantize := step == "quantize"
    weld := step == "weld"
    simplify := step == "simplify" }

/-- One iteration of the `executeMultiStep` loop (all steps assumed to
succeed): the step's name, the `currentInput` it consumed, the `stepOutput`
it wrote, the `StepOptions` handed to `buildCommand`, and the intermediate
file the post-step cleanup deletes (best-effort), if any. -/
structure StepRec where
  stepName : String
  input : String
  output : String
  stepOpts : GltfTransformExecOptions
  cleanup : Option String
  deriving Repr, DecidableEq

/-- The intermediate-file name `baseName_step<i>_<step><inputExt>` placed in
the input's directory. -/
def interFileName (dirName baseName inputExt : String) (i : Nat) (step : String) : String :=
  pathJoin dirName (baseName ++ "_step" ++ toString i ++ "_" ++ step ++ inputExt)

/-- The `executeMultiStep` loop, carrying the loop index `i`, the previous
step's name (for the cleanup path) and `currentInput`. Cleanup runs only
when the current step is not the last one and `i > 0`, and is skipped when
the previous intermediate name equals the request's original input path. -/
def multiStepAux (o : GltfTransformExecOptions) (dirName baseName inputExt finalOut : String) :
    List String → Nat → Option String → String → List StepRec
  | [], _, _, _ => []
  | step :: rest, i, prev, cur =>
    let isLast := rest.isEmpty
    let stepOutput := if isLast then finalOut else interFileName dirName baseName inputExt (i + 1) step
    let so := mkStepOptions o cur stepOutput step
    let cleanup : Option String :=
      if ¬ isLast ∧ 0 < i then
        match prev with
        | some p =>
          let previousFile := interFileName dirName baseName inputExt i p
          if previousFile ≠ o.inputPath then some previousFile else none
        | none => none
      else none
    { stepName := step, input := cur, output := stepOutput, stepOpts := so, cleanup := cleanup } ::
      multiStepAux o dirName baseName inputExt finalOut rest (i + 1) (some step) stepOutput

/-- The final output path resolved by `executeMultiStep` for the last step:
`options.outputPath || path.join(dirName, baseName + '_processed' + desiredExt)`. -/
def finalOutputPath (o : GltfTransformExecOptions) : String :=
  let inputExt := pathExtname o.inputPath
  let baseName := pathBasenameExt o.inputPath inputExt
  let dirName := pathDirname o.inputPath
  let desiredExt := desiredExtFrom o.outputFormat o.binary
  jsOrElse o.outputPath (pathJoin dirName (baseName ++ "_processed" ++ desiredExt))

/-- The full trace of `executeMultiStep` over `steps`, starting from the
request's original input path. -/
def multiStepRecords (o : GltfTransformExecOptions) (steps : List String) : List StepRec :=
  let inputExt := pathExtname o.inputPath
  let baseName := pathBasenameExt o.inputPath inputExt
  let dirName := pathDirname o.inputPath
  multiStepAux o dirName baseName inputExt (finalOutputPath o) steps 0 none o.inputPath

/-! ## Step execution / stderr classification (`execute`) -/

/-- Outcome of `execAsync(command)`: either the promise rejected (non-zero
exit or spawn failure; the rejection object carries the process error
message, to which Node attaches the captured stderr) or the process exited
with code 0, yielding the captured stderr text. -/
inductive ExecOutcome where
  | procError (message : String)
  | exited (stderrText : String)
  deriving Repr, DecidableEq

/-- The fatal-stderr heuristic `/error|failed|exception/i.test(stderr)`:
a case-insensitive scan for any of the three keyword substrings. -/
def fatalStderrPattern (se : String) : Bool :=
  strContainsSub (strToLowerAscii se) "error" ||
  strContainsSub (strToLowerAscii se) "failed" ||
  strContainsSub (strToLowerAscii se) "exception"

/-- Whether a classified outcome is a raised error. -/
def classifyFailed : Except String Unit → Bool
  | .error _ => true
  | .ok _ => false

/-- The failure classification of `GltfTransformExecutor.execute`: a
rejected `execAsync` propagates; a zero-exit run is fatal exactly when
stderr is truthy and matches the keyword heuristic, raising an error that
embeds the captured stderr. -/
def executeClassify : ExecOutcome → Except String Unit
  | .procError m => .error m
  | .exited se =>
    if !(se == "") && fatalStderrPattern se then .error ("gltf-transform error: " ++ se)
    else .ok ()

/-! ## JSON serialization (`JSON.stringify` on the parameter object)

Parameter objects are modelled as JSON values whose object fields keep
their JS insertion order (which is exactly what `JSON.stringify`
serializes). The modelled parameter objects contain no control characters,
so the escape table covers quotes and backslashes. -/

inductive JVal where
  | jnull
  | jbool (b : Bool)
  | jnum (n : Int)
  | jstr (s : String)
  | jarr (xs : List JVal)
  | jobj (fields : List (String × JVal))

def jsonEscapeChar (c : Char) : List Char :=
  if c = '"' then ['\\', '"']
  else if c = '\\' then ['\\', '\\']
  else [c]

def jsonQuote (s : String) : String :=
  "\"" ++ String.mk (s.toList.foldr (fun c acc => jsonEscapeChar c ++ acc) []) ++ "\""

mutual

def jsonStringify : JVal → String
  | .jnull => "null"
  | .jbool true => "true"
  | .jbool false => "false"
  | .jnum n => toString n
  | .jstr s => jsonQuote s
  | .jarr xs => "[" ++ String.intercalate "," (jsonStringifyList xs) ++ "]"
  | .jobj fs => "\x7b" ++ String.intercalate "," (jsonStringifyFields fs) ++ "\x7d"

def jsonStringifyList : List JVal → List String
  | [] => []
  | x :: t => jsonStringify x :: jsonStringifyList t

def jsonStringifyFields : List (String × JVal) → List String
  | [] => []
  | (k, v) :: t => (jsonQuote k ++ ":" ++ jsonStringify v) :: jsonStringifyFields t

end

/-- UTF-8 encoding of one character (`hash.update(string)` uses utf8). -/
def utf8EncodeChar (c : Char) : List Nat :=
  let n := c.toNat
  if n < 128 then [n]
  else if n < 2048 then [192 + n / 64, 128 + n % 64]
  else if n < 65536 then [224 + n / 4096, 128 + (n / 64) % 64, 128 + n % 64]
  else [240 + n / 262144, 128 + (n / 4096) % 64, 128 + (n / 64) % 64, 128 + n % 64]

def strUtf8Bytes (s : String) : List Nat :=
  s.toList.foldr (fun c acc => utf8EncodeChar c ++ acc) []

/-! ## SHA-256 (`crypto.createHash('sha256')`) -/

def w32 : Nat := 4294967296

def rotr32 (n x : Nat) : Nat := ((x >>> n) ||| (x <<< (32 - n))) % w32

def shaCh (x y z : Nat) : Nat := (x &&& y) ^^^ ((x ^^^ 4294967295) &&& z)

def shaMaj (x y z : Nat) : Nat := (x &&& y) ^^^ (x &&& z) ^^^ (y &&& z)

def bigSigma0 (x : Nat) : Nat := rotr32 2 x ^^^ rotr32 13 x ^^^ rotr32 22 x

def bigSigma1 (x : Nat) : Nat := rotr32 6 x ^^^ rotr32 11 x ^^^ rotr32 25 x

def smallSigma0 (x : Nat) : Nat := rotr32 7 x ^^^ rotr32 18 x ^^^ (x >>> 3)

def smallSigma1 (x : Nat) : Nat := rotr32 17 x ^^^ rotr32 19 x ^^^ (x >>> 10)

def shaK : List Nat :=
  [1116352408, 1899447441, 3049323471, 3921009573,
   961987163, 1508970993, 2453635748, 2870763221,
   3624381080, 310598401, 607225278, 1426881987,
   1925078388, 2162078206, 2614888103, 3248222580,
   3835390401, 4022224774, 264347078, 604807628,
   770255983, 1249150122, 1555081692, 1996064986,
   2554220882, 2821834349, 2952996808, 3210313671,
   3336571891, 3584528711, 113926993, 338241895,
   666307205, 773529912, 1294757372, 1396182291,
   1695183700, 1986661051, 2177026350, 2456956037,
   2730485921, 2820302411, 3259730800, 3345764771,
   3516065817, 3600352804, 4094571909, 275423344,
   430227734, 506948616, 659060556, 883997877,
   958139571, 1322822218, 1537002063, 1747873779,
   1955562222, 2024104815, 2227730452, 2361852424,
   2428436474, 2756734187, 3204031479, 3329325298]

def shaInitH : List Nat :=
  [1779033703, 3144134277, 1013904242, 2773480762,
   1359893119, 2600822924, 528734635, 1541459225]

/-- Big-endian eight-byte encoding of the message bit length. -/
def lenBytesBE (n : Nat) : List Nat :=
  [(n >>> 56) % 256, (n >>> 48) % 256, (n >>> 40) % 256, (n >>> 32) % 256,
   (n >>> 24) % 256, (n >>> 16) % 256, (n >>> 8) % 256, n % 256]

/-- Standard SHA-256 padding: `0x80`, zeros to 56 mod 64, 64-bit bit length. -/
def padMessage (msg : List Nat) : List Nat :=
  msg ++ [128] ++ List.replicate ((119 - msg.length % 64) % 64) 0 ++ lenBytesBE (8 * msg.length)

/-- Chunking helper, structurally recursive on the byte list: `acc` holds
the current chunk in reverse and `k` the remaining capacity. -/
def chunksGo : List Nat → List Nat → Nat → List (List Nat)
  | [], acc, _ => if acc.isEmpty then [] else [acc.reverse]
  | b :: t, acc, k =>
    if k ≤ 1 then (b :: acc).reverse :: chunksGo t [] 64
    else chunksGo t (b :: acc) (k - 1)

/-- Split a byte list into 64-byte blocks (the padded message's length is a
multiple of 64). -/
def chunks64 (l : List Nat) : List (List Nat) := chunksGo l [] 64

def bytesToWords : List Nat → List Nat
  | b0 :: b1 :: b2 :: b3 :: rest => (((b0 * 256 + b1) * 256 + b2) * 256 + b3) :: bytesToWords rest
  | _ => []

/-- Extend the 16-word block schedule by `t` further words. -/
def scheduleExtend : List Nat → Nat → List Nat
  | w, 0 => w
  | w, t + 1 =>
    let n := w.length
    let wi := (smallSigma1 (w.getD (n - 2) 0) + w.getD (n - 7) 0 +
               smallSigma0 (w.getD (n - 15) 0) + w.getD (n - 16) 0) % w32
    scheduleExtend (w ++ [wi]) t

/-- One compression round on the eight-word working state. -/
def shaRound (st : List Nat) (kw : Nat × Nat) : List Nat :=
  match st with
  | [a, b, c, d, e, f, g, h] =>
    let t1 := (h + bigSigma1 e + shaCh e f g + kw.1 + kw.2) % w32
    let t2 := (bigSigma0 a + shaMaj a b c) % w32
    [(t1 + t2) % w32, a, b, c, (d + t1) % w32, e, f, g]
  | other => other

def compressBlock (h : List Nat) (block : List Nat) : List Nat :=
  let ws := scheduleExtend (bytesToWords block) 48
  let st := (shaK.zip ws).foldl shaRound h
  (h.zip st).map (fun p => (p.1 + p.2) % w32)

/-- The eight 32-bit hash words of SHA-256 over a byte list. -/
def sha256Words (msg : List Nat) : List Nat :=
  (chunks64 (padMessage msg)).foldl compressBlock shaInitH

def hexAlphabet : List Char := "0123456789abcdef".toList

def hexDigitChar (d : Nat) : Char := hexAlphabet.getD (d % 16) '0'

def wordHexChars (w : Nat) : List Char :=
  [28, 24, 20, 16, 12, 8, 4, 0].map (fun s => hexDigitChar ((w >>> s) &&& 15))

/-- The lowercase hex digest characters (`digest('hex')`). -/
def sha256HexChars (msg : List Nat) : List Char :=
  (sha256Words msg).foldr (fun w acc => wordHexChars w ++ acc) []

/-! ## `CacheManager.generateKey` -/

/-- The 16-character digest `sha256(JSON.stringify(data)).hex.substring(0, 16)`. -/
def hexDigest16 (data : JVal) : String :=
  String.mk ((sha256HexChars (strUtf8Bytes (jsonStringify data))).take 16)

/-- `CacheManager.generateKey(prefix, data)`: the digest prefixed with the
logical operation name and a colon. -/
def generateKey (pfx : String) (data : JVal) : String :=
  pfx ++ ":" ++ hexDigest16 data

/-! ## `GltfProcessor.process` (`src/core/gltf-processor.ts`)

The processor consults the shared cache before executing and populates it
after a successful run. The actual execution (Node API call or CLI
fallback plus the `fs.stat` calls that shape the result object) is the
injected external collaborator `ProcWorld.run`; entry expiry is not
modelled (both calls of interest fall inside the TTL window). -/

/-- `dracoOptions` of `GltfProcessOptions` (quantization bit widths). -/
structure DracoOptions where
  compressionLevel : Option Nat := none
  quantizePosition : Option Nat := none
  quantizeNormal : Option Nat := none
  quantizeTexcoord : Option Nat := none
  quantizeColor : Option Nat := none
  quantizeGeneric : Option Nat := none
  deriving Repr, DecidableEq

/-- The `GltfProcessOptions` interface of `gltf-processor.ts`. -/
structure GltfProcessOptions where
  inputPath : String := ""
  outputPath : Option String := none
  outputFormat : Option OutputFormat := none
  separateTextures : Bool := false
  textureCompress : Bool := false
  textureFormat : Option String := none
  optimize : Bool := false
  compressGeometry : Bool := false
  compressTextures : Bool := false
  draco : Bool := false
  dracoOptions : Option DracoOptions := none
  removeNormals : Bool := false
  stripEmptyNodes : Bool := false
  deriving Repr, DecidableEq

/-- Result payload of a processing run (the float `compressionRatio` is a
pure function of the two sizes and is not separately modelled). -/
structure GltfProcessResult where
  inputPath : String
  outputPath : String
  format : OutputFormat
  inputSize : Nat
  outputSize : Nat
  deriving Repr, DecidableEq

/-- The uniform result envelope (`ProcessResult<T>`); the wall-clock /
heap-sample metrics are real-time measurements and are not modelled. -/
structure ProcessEnvelope where
  success : Bool
  data : Option GltfProcessResult := none
  error : Option String := none
  deriving Repr, DecidableEq

def natJson (n : Option Nat) : Option JVal := n.map (fun k => .jnum (Int.ofNat k))

def jsonFieldsOfDraco (d : DracoOptions) : List (String × JVal) :=
  (natJson d.compressionLevel).toList.map (fun j => ("compressionLevel", j)) ++
  (natJson d.quantizePosition).toList.map (fun j => ("quantizePosition", j)) ++
  (natJson d.quantizeNormal).toList.map (fun j => ("quantizeNormal", j)) ++
  (natJson d.quantizeTexcoord).toList.map (fun j => ("quantizeTexcoord", j)) ++
  (natJson d.quantizeColor).toList.map (fun j => ("quantizeColor", j)) ++
  (natJson d.quantizeGeneric).toList.map (fun j => ("quantizeGeneric", j))

/-- The JSON value `JSON.stringify` serializes for a processing-options
object: present fields in interface order (absent optional fields are
omitted, as `JSON.stringify` omits `undefined` properties). -/
def gltfProcessOptsToJson (o : GltfProcessOptions) : JVal :=
  .jobj (
    [("inputPath", .jstr o.inputPath)] ++
    (o.outputPath.toList.map (fun s => ("outputPath", JVal.jstr s))) ++
    (o.outputFormat.toList.map (fun f =>
      ("outputFormat", JVal.jstr (match f with | .glb => "glb" | .gltf => "gltf")))) ++
    (if o.separateTextures then [("separateTextures", JVal.jbool true)] else []) ++
    (if o.textureCompress then [("textureCompress", JVal.jbool true)] else []) ++
    (o.textureFormat.toList.map (fun s => ("textureFormat", JVal.jstr s))) ++
    (if o.optimize then [("optimize", JVal.jbool true)] else []) ++
    (if o.compressGeometry then [("compressGeometry", JVal.jbool true)] else []) ++
    (if o.compressTextures then [("compressTextures", JVal.jbool true)] else []) ++
    (if o.draco then [("draco", JVal.jbool true)] else []) ++
    (o.dracoOptions.toList.map (fun d => ("dracoOptions", JVal.jobj (jsonFieldsOfDraco d)))) ++
    (if o.removeNormals then [("removeNormals", JVal.jbool true)] else []) ++
    (if o.stripEmptyNodes then [("stripEmptyNodes", JVal.jbool true)] else []))

/-- The output-path resolution at the top of `GltfProcessor.process`:
`if (!options.outputPath)` derive `baseName_processed` with the extension
chosen by `outputFormat === 'glb'`, and assign it into the options object. -/
def resolveProcessOutputPath (o : GltfProcessOptions) : GltfProcessOptions :=
  if jsStrFalsy o.outputPath then
    let inputExt := pathExtname o.inputPath
    let outputExt := if o.outputFormat = some .glb then ".glb" else ".gltf"
    let baseName := pathBasenameExt o.inputPath inputExt
    let dirName := pathDirname o.inputPath
    { o with outputPath := some (pathJoin dirName (baseName ++ "_processed" ++ outputExt)) }
  else o

/-- The injected execution collaborator: the Node-API/CLI run plus the
`fs.stat` calls shaping the result. Deterministic within one scenario. -/
structure ProcWorld where
  run : GltfProcessOptions → Except String GltfProcessResult

/-- In-memory cache store (key/value pairs; TTL expiry not modelled since
the claims stay inside the TTL window). -/
abbrev CacheStore : Type := List (String × GltfProcessResult)

def storeGet (st : CacheStore) (k : String) : Option GltfProcessResult :=
  (st.find? (fun p => p.1 == k)).map (fun p => p.2)

def storeSet (st : CacheStore) (k : String) (v : GltfProcessResult) : CacheStore :=
  (k, v) :: st.filter (fun p => p.1 ≠ k)

/-- Outcome of one `GltfProcessor.process` call: the returned envelope, the
cache state afterwards, and how many times the underlying execution ran. -/
structure ProcessCall where
  envelope : ProcessEnvelope
  cache : CacheStore
  execRuns : Nat

/-- `GltfProcessor.process`: resolve the output path (mutating the options
object), generate the cache key from the resolved options, return the
cached result on a hit; otherwise execute, cache a successful result
(TTL 3600 s) and wrap failures into a failure envelope. -/
def processModel (w : ProcWorld) (o : GltfProcessOptions) (cache : CacheStore) : ProcessCall :=
  let oRes := resolveProcessOutputPath o
  let cacheKey := generateKey "gltf-process" (gltfProcessOptsToJson oRes)
  match storeGet cache cacheKey with
  | some cached =>
    { envelope := { success := true, data := some cached }, cache := cache, execRuns := 0 }
  | none =>
    match w.run oRes with
    | .ok result =>
      { envelope := { success := true, data := some result },
        cache := storeSet cache cacheKey result, execRuns := 1 }
    | .error msg =>
      { envelope := { success := false, error := some msg }, cache := cache, execRuns := 1 }

/-! ## Output-path normalization in the `gltf-transform` MCP tool wrapper
(`gltfTransformExecutorTool.execute` in `src/tools/index.ts`) -/

/-- The default output path the tool wrapper derives from the input path
string, `outputFormat` and `binary` alone (no filesystem access). -/
def toolDefaultOutputPath (inputPath : String) (outputFormat : Option OutputFormat)
    (binary : Bool) : String :=
  let inputExt := pathExtname inputPath
  let baseName := pathBasenameExt inputPath inputExt
  let dirName := pathDirname inputPath
  let desiredExt := desiredExtFrom outputFormat binary
  pathJoin dirName (baseName ++ "_transformed" ++ desiredExt)

/-- The tool wrapper's normalization: `if (!params.outputPath)` assign the
derived default into `params.outputPath`. The returned record is the
post-call state of the caller's `params` object. -/
def toolNormalizeParams (p : GltfTransformExecOptions) : GltfTransformExecOptions :=
  if jsStrFalsy p.outputPath then
    { p with outputPath := some (toolDefaultOutputPath p.inputPath p.outputFormat p.binary) }
  else p

/-! ## Flag-counting helpers for the step-isolation claim -/

/-- Number of truthy flags among the fourteen operation flags the planner
scans (and `executeMultiStep` clears). -/
def plannerFlagCount (o : GltfTransformExecOptions) : Nat :=
  o.meshopt.toNat + o.draco.toNat + o.quantize.toNat + o.weld.toNat + o.simplify.toNat +
  o.etc1s.toNat + o.uastc.toNat + o.webp.toNat + o.avif.toNat + o.png.toNat + o.jpeg.toNat +
  o.optimize.toNat + o.dedup.toNat + o.prune.toNat

/-- Number of truthy operation flags over the full operation vocabulary of
the options interface (every flag `buildCommand`'s primary chain consults,
terminal `inspect`/`validate` excluded). -/
def opFlagCount (o : GltfTransformExecOptions) : Nat :=
  plannerFlagCount o +
  o.center.toNat + o.instanceFlag.toNat + o.flatten.toNat + o.join.toNat +
  (!o.merge.isEmpty).toNat + o.partition.toNat + o.gzip.toNat +
  o.unweld.toNat + o.dequantize.toNat + o.tangents.toNat + o.unwrap.toNat + o.reorder.toNat +
  o.metalrough.toNat + o.palette.toNat + o.unlit.toNat + o.resize.isSome.toNat +
  o.ktxdecompress.toNat + o.ktxfix.toNat +
  o.resample.toNat + o.sequence.toNat + o.sparse.toNat +
  o.textureCompress.truthy.toNat

/-! ## General helper lemmas -/

theorem if_singleton_append (b : Bool) (x : String) (l : List String) :
    (if b then [x] else []) ++ l = if b then x :: l else l := by
  cases b <;> simp

theorem if_cons_append (b : Bool) (x : String) (l m : List String) :
    (if b then x :: l else l) ++ m = if b then x :: (l ++ m) else (l ++ m) := by
  cases b <;> simp

/-! ## Claim theorems -/

/-- C1: for every request, the planner returns `["inspect"]` when `inspect`
is set, else `["validate"]` when `validate` is set, else exactly the
subsequence of the fixed ordered list [meshopt, draco, quantize, weld,
simplify, etc1s, uastc, webp, avif, png, jpeg, optimize, dedup, prune]
consisting of the flags that are set, falling back to `["copy"]` when that
subsequence is empty. -/
theorem C1_plan_is_fixed_order_subsequence (o : GltfTransformExecOptions) :
    planExecutionSteps o = planSpecC1 o := by
  unfold planExecutionSteps planSpecC1 plannerScanOrder
  simp only [List.filter_cons, List.filter_nil, plannerFlagSet, List.append_assoc,
    if_singleton_append, if_cons_append, List.append_nil, List.nil_append]

/-- C2 counterexample: the claim ranks `merge` above `optimize`, but on an
options object with a non-empty `merge` list and `optimize` set, the
builder's chain selects `optimize` (its first branch), not `merge`; the
generated command is an `optimize` command. -/
theorem C2_counterexample_optimize_beats_merge :
    selectPrimaryCommand { inputPath := "a.glb", optimize := true, merge := ["b.glb"] } =
      "optimize"
    ∧ ("optimize" : String) ≠ "merge"
    ∧ buildCommand { inputPath := "a.glb", optimize := true, merge := ["b.glb"] } =
      .ok "gltf-transform optimize \"a.glb\" \"a_transformed.gltf\"" := by
  refine ⟨by decide, by decide, ?_⟩
  have h : (buildCommand { inputPath := "a.glb", optimize := true, merge := ["b.glb"] }).toOption =
      some "gltf-transform optimize \"a.glb\" \"a_transformed.gltf\"" := by decide
  cases hb : buildCommand { inputPath := "a.glb", optimize := true, merge := ["b.glb"] } with
  | ok s => rw [hb] at h; simp [Except.toOption] at h; rw [h]
  | error e => rw [hb] at h; simp [Except.toOption] at h

/-- C2 (amended): the Command Builder selects exactly one primary command
token via the fixed precedence chain, and `optimize` ranks above `merge`
(not the other way around): whenever the `merge` list is non-empty, the
primary command is `"optimize"` if `optimize` is set and `"merge"`
otherwise. -/
theorem C2_amended_primary_precedence (o : GltfTransformExecOptions)
    (h : o.merge ≠ []) :
    selectPrimaryCommand o = if o.optimize then "optimize" else "merge" := by
  have hm : o.merge.isEmpty = false := by
    cases hm : o.merge with
    | nil => exact absurd hm h
    | cons a t => simp [List.isEmpty]
  cases ho : o.optimize <;> simp [selectPrimaryCommand, ho, hm]

/-- Witness for C2 (amended) at a concrete request. -/
theorem C2_amended_witness :
    ({ inputPath := "a.glb", optimize := true, merge := ["b.glb"] } :
      GltfTransformExecOptions).merge ≠ []
    ∧ selectPrimaryCommand { inputPath := "a.glb", optimize := true, merge := ["b.glb"] } =
      (if ({ inputPath := "a.glb", optimize := true, merge := ["b.glb"] } :
        GltfTransformExecOptions).optimize then "optimize" else "merge") :=
  ⟨by decide, C2_amended_primary_precedence _ (by decide)⟩

/-- C6: step execution raises exactly when the process invocation rejects
(non-zero exit / spawn error) or a zero-exit run's stderr matches the
case-insensitive `error|failed|exception` scan; the keyword-triggered error
embeds the captured stderr, a zero-exit run with empty stderr succeeds, and
keyword-free diagnostics are treated as advisory. -/
theorem C6_stderr_classification :
    (∀ m, executeClassify (.procError m) = .error m)
    ∧ (∀ se, classifyFailed (executeClassify (.exited se)) = true ↔ fatalStderrPattern se = true)
    ∧ executeClassify (.exited "Error: corrupt buffer") =
        .error "gltf-transform error: Error: corrupt buffer"
    ∧ classifyFailed (executeClassify (.exited "ERROR in texture")) = true
    ∧ executeClassify (.exited "") = .ok ()
    ∧ executeClassify (.exited "Warning: legacy extension present") = .ok () := by
  refine ⟨fun m => rfl, fun se => ?_, by rfl, by decide, by rfl, by rfl⟩
  by_cases h0 : se = ""
  · subst h0; decide
  · have hb : (se == "") = false := beq_eq_false_iff_ne.mpr h0
    by_cases hp : fatalStderrPattern se = true
    · simp [executeClassify, classifyFailed, hb, hp]
    · simp [executeClassify, classifyFailed, hb, hp]

/-- C9 counterexample: the tool wrapper's normalization mutates the
caller's request object — for a request without `outputPath`, the object's
state after the call differs from its state before (the resolved default
path has been assigned into it). -/
theorem C9_counterexample_normalization_mutates :
    toolNormalizeParams { inputPath := "a.gltf" } ≠
      ({ inputPath := "a.gltf" } : GltfTransformExecOptions)
    ∧ (toolNormalizeParams { inputPath := "a.gltf" }).outputPath =
      some "a_transformed.gltf" := by
  refine ⟨by decide, by decide⟩

/-- C9 (amended): the normalization is deterministic, reads only the input
path string together with `outputFormat`/`binary` to derive the default,
performs no filesystem access, and writes exactly one field of the
caller's request object: afterwards `outputPath` holds the resolved path
(the original value when truthy, the derived default otherwise) and every
other field is unchanged. -/
theorem C9_amended_normalization_touches_only_outputPath
    (p : GltfTransformExecOptions) :
    toolNormalizeParams p =
      { p with
        outputPath := some (jsOrElse p.outputPath (toolDefaultOutputPath p.inputPath p.outputFormat p.binary)) } := by
  unfold toolNormalizeParams jsOrElse
  cases hp : p.outputPath with
  | none => simp [jsStrFalsy]
  | some s =>
    by_cases hs : s = ""
    · subst hs; simp [jsStrFalsy]
    · have hb : (s == "") = false := beq_eq_false_iff_ne.mpr hs
      simp only [jsStrFalsy, hb, Bool.false_eq_true, if_neg, ite_false, Option.getD_some]
      rw [← hp]

/-! ### Digest-shape lemmas for the cache key -/

theorem shaRound_length (st : List Nat) (kw : Nat × Nat) :
    (shaRound st kw).length = st.length := by
  unfold shaRound
  split <;> simp_all

theorem foldl_shaRound_length (l : List (Nat × Nat)) (st : List Nat) :
    (l.foldl shaRound st).length = st.length := by
  induction l generalizing st with
  | nil => rfl
  | cons kw t ih => simp [List.foldl_cons, ih, shaRound_length]

theorem compressBlock_length (h b : List Nat) (hh : h.length = 8) :
    (compressBlock h b).length = 8 := by
  simp [compressBlock, List.length_zip, foldl_shaRound_length, hh]

theorem foldl_compressBlock_length (bs : List (List Nat)) (acc : List Nat)
    (ha : acc.length = 8) : (bs.foldl compressBlock acc).length = 8 := by
  induction bs generalizing acc with
  | nil => exact ha
  | cons b t ih => exact ih _ (compressBlock_length _ _ ha)

theorem sha256Words_length (msg : List Nat) : (sha256Words msg).length = 8 :=
  foldl_compressBlock_length _ _ (by decide)

theorem wordHexChars_length (w : Nat) : (wordHexChars w).length = 8 := by
  simp [wordHexChars]

theorem foldr_wordHex_length (ws : List Nat) :
    (ws.foldr (fun w acc => wordHexChars w ++ acc) []).length = 8 * ws.length := by
  induction ws with
  | nil => rfl
  | cons w t ih => simp [List.foldr_cons, ih, wordHexChars_length, Nat.mul_succ]; omega

theorem sha256HexChars_length (msg : List Nat) : (sha256HexChars msg).length = 64 := by
  unfold sha256HexChars
  rw [foldr_wordHex_length, sha256Words_length]

theorem hexDigitChar_mem (d : Nat) : hexDigitChar d ∈ hexAlphabet := by
  have hlt : d % 16 < 16 := Nat.mod_lt d (by norm_num)
  have hall : ∀ m, m < 16 → hexAlphabet.getD m '0' ∈ hexAlphabet := by decide
  exact hall (d % 16) hlt

theorem wordHexChars_all_hex (w : Nat) :
    (wordHexChars w).all (fun c => hexAlphabet.contains c) = true := by
  simp only [wordHexChars, List.map_cons, List.map_nil, List.all_cons, List.all_nil,
    Bool.and_true, Bool.and_eq_true, List.contains, List.elem_eq_mem, decide_eq_true_eq]
  exact ⟨hexDigitChar_mem _, hexDigitChar_mem _, hexDigitChar_mem _, hexDigitChar_mem _,
    hexDigitChar_mem _, hexDigitChar_mem _, hexDigitChar_mem _, hexDigitChar_mem _⟩

theorem sha256HexChars_all_hex (msg : List Nat) :
    (sha256HexChars msg).all (fun c => hexAlphabet.contains c) = true := by
  unfold sha256HexChars
  induction sha256Words msg with
  | nil => rfl
  | cons w t ih =>
    simp only [List.foldr_cons, List.all_append, ih, wordHexChars_all_hex, Bool.and_true]

/-- C5 counterexample: `generateKey` hashes `JSON.stringify(data)`, which
serializes object fields in insertion order, so two structurally equal
parameter objects (the same key/value set, a permutation of each other)
produce different cache keys. -/
theorem C5_counterexample_key_order_sensitivity :
    List.Perm [("a", JVal.jnum 1), ("b", JVal.jnum 2)]
      [("b", JVal.jnum 2), ("a", JVal.jnum 1)]
    ∧ generateKey "p" (.jobj [("a", JVal.jnum 1), ("b", JVal.jnum 2)]) = "p:43258cff783fe703"
    ∧ generateKey "p" (.jobj [("b", JVal.jnum 2), ("a", JVal.jnum 1)]) = "p:3fb75453225c732a"
    ∧ generateKey "p" (.jobj [("a", JVal.jnum 1), ("b", JVal.jnum 2)]) ≠
      generateKey "p" (.jobj [("b", JVal.jnum 2), ("a", JVal.jnum 1)]) :=
  ⟨List.Perm.swap _ _ _, by decide, by decide, by decide⟩

/-- C5 (amended): for every prefix and parameter object the key is
`<prefix>:<digest>` with a digest of exactly 16 lowercase hexadecimal
characters, and the digest is a deterministic function of the JSON
serialization of the parameter object — including the insertion order of
its fields (structurally equal objects with differently ordered fields may
produce different keys, see the counterexample). -/
theorem C5_amended_key_shape (pfx : String) (data : JVal) :
    generateKey pfx data = pfx ++ ":" ++ hexDigest16 data
    ∧ (hexDigest16 data).length = 16
    ∧ (hexDigest16 data).toList.all (fun c => hexAlphabet.contains c) = true := by
  refine ⟨rfl, ?_, ?_⟩
  · show (String.mk ((sha256HexChars (strUtf8Bytes (jsonStringify data))).take 16)).length = 16
    have h64 := sha256HexChars_length (strUtf8Bytes (jsonStringify data))
    simp [String.length, List.length_take, h64]
  · show (String.mk ((sha256HexChars (strUtf8Bytes (jsonStringify data))).take 16)).toList.all
      (fun c => hexAlphabet.contains c) = true
    have hall := sha256HexChars_all_hex (strUtf8Bytes (jsonStringify data))
    rw [List.all_eq_true] at hall ⊢
    intro c hc
    exact hall c (List.take_subset _ _ hc)

/-! ### Multi-step orchestration lemmas -/

theorem multiStepAux_length (o : GltfTransformExecOptions) (d b e f : String) :
    ∀ (steps : List String) (i : Nat) (prev : Option String) (cur : String),
      (multiStepAux o d b e f steps i prev cur).length = steps.length := by
  intro steps
  induction steps with
  | nil => intro i prev cur; rfl
  | cons s t ih => intro i prev cur; simp [multiStepAux, ih]

theorem multiStepAux_ne_nil (o : GltfTransformExecOptions) (d b e f : String)
    (s : String) (t : List String) (i : Nat) (prev : Option String) (cur : String) :
    multiStepAux o d b e f (s :: t) i prev cur ≠ [] := by
  intro h
  have := multiStepAux_length o d b e f (s :: t) i prev cur
  rw [h] at this
  simp at this

theorem multiStepAux_head_input (o : GltfTransformExecOptions) (d b e f : String)
    (s : String) (t : List String) (i : Nat) (prev : Option String) (cur : String) :
    (multiStepAux o d b e f (s :: t) i prev cur).head?.map (fun r => r.input) = some cur := by
  simp [multiStepAux]

theorem multiStepAux_chain (o : GltfTransformExecOptions) (d b e f : String) :
    ∀ (steps : List String) (i : Nat) (prev : Option String) (cur : String) (k : Nat)
      (hk : k + 1 < (multiStepAux o d b e f steps i prev cur).length),
      ((multiStepAux o d b e f steps i prev cur).get ⟨k, Nat.lt_of_succ_lt hk⟩).output =
        ((multiStepAux o d b e f steps i prev cur).get ⟨k + 1, hk⟩).input := by
  intro steps
  induction steps with
  | nil => intro i prev cur k hk; simp [multiStepAux] at hk
  | cons s t ih =>
    intro i prev cur k hk
    match k with
    | 0 =>
      cases t with
      | nil =>
        rw [multiStepAux_length] at hk
        simp at hk
      | cons s2 t2 => simp [multiStepAux]
    | k + 1 =>
      have hk2 : k + 1 < (multiStepAux o d b e f t (i + 1) (some s)
          (if t.isEmpty then f else interFileName d b e (i + 1) s)).length := by
        rw [multiStepAux_length]
        rw [multiStepAux_length] at hk
        simpa using hk
      have := ih (i + 1) (some s)
        (if t.isEmpty then f else interFileName d b e (i + 1) s) k hk2
      simpa [multiStepAux] using this

theorem multiStepAux_last_output (o : GltfTransformExecOptions) (d b e f : String) :
    ∀ (steps : List String) (i : Nat) (prev : Option String) (cur : String),
      steps ≠ [] →
      (multiStepAux o d b e f steps i prev cur).getLast?.map (fun r => r.output) = some f := by
  intro steps
  induction steps with
  | nil => intro i prev cur h; exact absurd rfl h
  | cons s t ih =>
    intro i prev cur _
    cases t with
    | nil => simp [multiStepAux]
    | cons s2 t2 =>
      have hrec := ih (i + 1) (some s)
        (if (s2 :: t2).isEmpty then f else interFileName d b e (i + 1) s) (by simp)
      cases haux : multiStepAux o d b e f (s2 :: t2) (i + 1) (some s)
          (if (s2 :: t2).isEmpty then f else interFileName d b e (i + 1) s) with
      | nil => exact absurd haux (multiStepAux_ne_nil o d b e f s2 t2 _ _ _)
      | cons r2 rest2 =>
        rw [haux] at hrec
        show ((multiStepAux o d b e f (s :: s2 :: t2) i prev cur).getLast?).map
          (fun r => r.output) = some f
        simp only [multiStepAux] at haux ⊢
        rw [haux, List.getLast?_cons_cons]
        exact hrec

theorem multiStepAux_stepOpts_shape (o : GltfTransformExecOptions) (d b e f : String) :
    ∀ (steps : List String) (i : Nat) (prev : Option String) (cur : String) (r : StepRec),
      r ∈ multiStepAux o d b e f steps i prev cur →
      ∃ c t2 s2, r.stepOpts = mkStepOptions o c t2 s2 := by
  intro steps
  induction steps with
  | nil => intro i prev cur r hr; simp [multiStepAux] at hr
  | cons s t ih =>
    intro i prev cur r hr
    simp only [multiStepAux, List.mem_cons] at hr
    cases hr with
    | inl h => exact ⟨cur, _, s, by rw [h]⟩
    | inr h => exact ih _ _ _ _ h

theorem multiStepAux_cleanup (o : GltfTransformExecOptions) (d b e f : String) :
    ∀ (steps : List String) (i : Nat) (prev : Option String) (cur : String),
      (0 < i → ∃ p, prev = some p ∧ interFileName d b e i p = cur) →
      ∀ (k : Nat) (hk : k < (multiStepAux o d b e f steps i prev cur).length),
        ((multiStepAux o d b e f steps i prev cur).get ⟨k, hk⟩).cleanup =
          if 0 < i + k ∧ k + 1 < (multiStepAux o d b e f steps i prev cur).length ∧
              ((multiStepAux o d b e f steps i prev cur).get ⟨k, hk⟩).input ≠ o.inputPath
          then some (((multiStepAux o d b e f steps i prev cur).get ⟨k, hk⟩).input)
          else none := by
  intro steps
  induction steps with
  | nil => intro i prev cur _ k hk; simp [multiStepAux] at hk
  | cons s t ih =>
    intro i prev cur hinv k hk
    match k with
    | 0 =>
      cases t with
      | nil =>
        have hlen : (multiStepAux o d b e f [s] i prev cur).length = 1 :=
          multiStepAux_length o d b e f [s] i prev cur
        simp [multiStepAux, hlen]
      | cons s2 t2 =>
        have hlen : 0 + 1 < (multiStepAux o d b e f (s :: s2 :: t2) i prev cur).length := by
          rw [multiStepAux_length]; simp
        by_cases hi : 0 < i
        · obtain ⟨p, hp, hcur⟩ := hinv hi
          subst hp
          by_cases hne : cur ≠ o.inputPath
          · simp [multiStepAux, hi, hne, hcur, hlen]
          · push_neg at hne
            simp [multiStepAux, hi, hne, hcur]
        · have hi0 : i = 0 := by omega
          subst hi0
          simp [multiStepAux]
    | k + 1 =>
      have hinv2 : 0 < i + 1 →
          ∃ p, (some s : Option String) = some p ∧ interFileName d b e (i + 1) p =
            (if t.isEmpty then f else interFileName d b e (i + 1) s) := by
        intro _
        cases t with
        | nil =>
          exfalso
          rw [multiStepAux_length] at hk
          simp at hk
        | cons s2 t2 => exact ⟨s, rfl, by simp⟩
      have hk2 : k < (multiStepAux o d b e f t (i + 1) (some s)
          (if t.isEmpty then f else interFileName d b e (i + 1) s)).length := by
        rw [multiStepAux_length]
        rw [multiStepAux_length] at hk
        simpa using hk
      have := ih (i + 1) (some s)
        (if t.isEmpty then f else interFileName d b e (i + 1) s) hinv2 k hk2
      have harith : i + (k + 1) = (i + 1) + k := by omega
      simp only [multiStepAux, List.get_cons_succ, multiStepAux_length, List.length_cons] at this ⊢
      rw [this]
      refine if_congr ?_ rfl rfl
      constructor
      · rintro ⟨h1, h2, h3⟩; exact ⟨by omega, by omega, h3⟩
      · rintro ⟨h1, h2, h3⟩; exact ⟨by omega, by omega, h3⟩

theorem plannerFlagCount_mkStepOptions (o : GltfTransformExecOptions)
    (cur out step : String) :
    plannerFlagCount (mkStepOptions o cur out step) ≤ 1 := by
  simp only [plannerFlagCount, mkStepOptions]
  by_cases h1 : step = "meshopt"
  · subst h1; simp
  by_cases h2 : step = "draco"
  · subst h2; simp
  by_cases h3 : step = "quantize"
  · subst h3; simp
  by_cases h4 : step = "weld"
  · subst h4; simp
  by_cases h5 : step = "simplify"
  · subst h5; simp
  by_cases h6 : step = "etc1s"
  · subst h6; simp
  by_cases h7 : step = "uastc"
  · subst h7; simp
  by_cases h8 : step = "webp"
  · subst h8; simp
  by_cases h9 : step = "avif"
  · subst h9; simp
  by_cases h10 : step = "png"
  · subst h10; simp
  by_cases h11 : step = "jpeg"
  · subst h11; simp
  by_cases h12 : step = "optimize"
  · subst h12; simp
  by_cases h13 : step = "dedup"
  · subst h13; simp
  by_cases h14 : step = "prune"
  · subst h14; simp
  have e1 : (step == "meshopt") = false := beq_eq_false_iff_ne.mpr h1
  have e2 : (step == "draco") = false := beq_eq_false_iff_ne.mpr h2
  have e3 : (step == "quantize") = false := beq_eq_false_iff_ne.mpr h3
  have e4 : (step == "weld") = false := beq_eq_false_iff_ne.mpr h4
  have e5 : (step == "simplify") = false := beq_eq_false_iff_ne.mpr h5
  have e6 : (step == "etc1s") = false := beq_eq_false_iff_ne.mpr h6
  have e7 : (step == "uastc") = false := beq_eq_false_iff_ne.mpr h7
  have e8 : (step == "webp") = false := beq_eq_false_iff_ne.mpr h8
  have e9 : (step == "avif") = false := beq_eq_false_iff_ne.mpr h9
  have e10 : (step == "png") = false := beq_eq_false_iff_ne.mpr h10
  have e11 : (step == "jpeg") = false := beq_eq_false_iff_ne.mpr h11
  have e12 : (step == "optimize") = false := beq_eq_false_iff_ne.mpr h12
  have e13 : (step == "dedup") = false := beq_eq_false_iff_ne.mpr h13
  have e14 : (step == "prune") = false := beq_eq_false_iff_ne.mpr h14
  simp [e1, e2, e3, e4, e5, e6, e7, e8, e9, e10, e11, e12, e13, e14]

/-- C3 counterexample: `executeMultiStep` clears only the planner's
fourteen flags; a request that also sets `center` produces StepOptions in
which two operation flags are truthy (`center` plus the step's own flag),
and the second step's command is hijacked: the builder selects `center`
instead of `webp`. -/
theorem C3_counterexample_step_isolation_leak :
    planExecutionSteps { inputPath := "a.glb", draco := true, webp := true, center := true } =
      ["draco", "webp"]
    ∧ ((multiStepRecords { inputPath := "a.glb", draco := true, webp := true, center := true }
        ["draco", "webp"]).map (fun r => opFlagCount r.stepOpts)) = [2, 2]
    ∧ ((multiStepRecords { inputPath := "a.glb", draco := true, webp := true, center := true }
        ["draco", "webp"]).map (fun r => r.stepOpts.center)) = [true, true]
    ∧ selectPrimaryCommand
        (((multiStepRecords { inputPath := "a.glb", draco := true, webp := true, center := true }
          ["draco", "webp"]).get ⟨1, by decide⟩).stepOpts) = "center" := by
  refine ⟨by decide, by decide, by decide, by decide⟩

/-- C3 (amended): in every generated StepOptions at most one of the
fourteen planner-managed operation flags (meshopt, draco, quantize, weld,
simplify, etc1s, uastc, webp, avif, png, jpeg, optimize, dedup, prune) is
truthy; all other operation flags (center, instance, flatten, join,
metalrough, resize, resample, merge, partition, gzip, ...) are passed
through from the original request unchanged rather than cleared. -/
theorem C3_amended_planner_flag_isolation (o : GltfTransformExecOptions)
    (steps : List String) (r : StepRec) (hr : r ∈ multiStepRecords o steps) :
    plannerFlagCount r.stepOpts ≤ 1
    ∧ r.stepOpts.center = o.center
    ∧ r.stepOpts.instanceFlag = o.instanceFlag
    ∧ r.stepOpts.flatten = o.flatten
    ∧ r.stepOpts.join = o.join
    ∧ r.stepOpts.metalrough = o.metalrough
    ∧ r.stepOpts.resize = o.resize
    ∧ r.stepOpts.resample = o.resample
    ∧ r.stepOpts.merge = o.merge
    ∧ r.stepOpts.partition = o.partition
    ∧ r.stepOpts.gzip = o.gzip := by
  simp only [multiStepRecords] at hr
  obtain ⟨c, t2, s2, hshape⟩ := multiStepAux_stepOpts_shape o _ _ _ _ steps 0 none o.inputPath r hr
  rw [hshape]
  exact ⟨plannerFlagCount_mkStepOptions o c t2 s2, rfl, rfl, rfl, rfl, rfl, rfl, rfl, rfl, rfl, rfl⟩

/-- Witness for C3 (amended) at a concrete request and generated step. -/
theorem C3_amended_witness :
    ((multiStepRecords { inputPath := "a.glb", draco := true, webp := true, center := true }
        ["draco", "webp"]).get ⟨0, by decide⟩) ∈
      multiStepRecords { inputPath := "a.glb", draco := true, webp := true, center := true }
        ["draco", "webp"]
    ∧ plannerFlagCount (((multiStepRecords
        { inputPath := "a.glb", draco := true, webp := true, center := true }
        ["draco", "webp"]).get ⟨0, by decide⟩).stepOpts) ≤ 1 :=
  ⟨by decide,
   (C3_amended_planner_flag_isolation
     { inputPath := "a.glb", draco := true, webp := true, center := true }
     ["draco", "webp"]
     ((multiStepRecords { inputPath := "a.glb", draco := true, webp := true, center := true }
        ["draco", "webp"]).get ⟨0, by decide⟩)
     (by decide)).1⟩

/-- C7: in every multi-step execution (N ≥ 2), the orchestrator's current
input starts at the request's original input path, each step's output path
is exactly the next step's input path, and the last step's output is the
request's resolved output path (`outputPath`, defaulting to the
`_processed` name). -/
theorem C7_step_chaining (o : GltfTransformExecOptions) (steps : List String)
    (h2 : 2 ≤ steps.length) :
    (multiStepRecords o steps).head?.map (fun r => r.input) = some o.inputPath
    ∧ (∀ (k : Nat) (hk : k + 1 < (multiStepRecords o steps).length),
        ((multiStepRecords o steps).get ⟨k, Nat.lt_of_succ_lt hk⟩).output =
          ((multiStepRecords o steps).get ⟨k + 1, hk⟩).input)
    ∧ (multiStepRecords o steps).getLast?.map (fun r => r.output) = some (finalOutputPath o) := by
  obtain ⟨s, t, rfl⟩ : ∃ s t, steps = s :: t := by
    cases steps with
    | nil => simp at h2
    | cons s t => exact ⟨s, t, rfl⟩
  simp only [multiStepRecords]
  exact ⟨multiStepAux_head_input o _ _ _ _ s t 0 none o.inputPath,
    fun k hk => multiStepAux_chain o _ _ _ _ (s :: t) 0 none o.inputPath k hk,
    multiStepAux_last_output o _ _ _ _ (s :: t) 0 none o.inputPath (by simp)⟩

/-- Witness for C7 at a concrete two-step request. -/
theorem C7_step_chaining_witness :
    2 ≤ (["draco", "webp"] : List String).length
    ∧ ((multiStepRecords { inputPath := "a.glb", draco := true, webp := true }
        ["draco", "webp"]).head?.map (fun r => r.input) =
        some ({ inputPath := "a.glb", draco := true, webp := true } :
          GltfTransformExecOptions).inputPath
      ∧ (∀ (k : Nat) (hk : k + 1 < (multiStepRecords
            { inputPath := "a.glb", draco := true, webp := true } ["draco", "webp"]).length),
          ((multiStepRecords { inputPath := "a.glb", draco := true, webp := true }
            ["draco", "webp"]).get ⟨k, Nat.lt_of_succ_lt hk⟩).output =
            ((multiStepRecords { inputPath := "a.glb", draco := true, webp := true }
              ["draco", "webp"]).get ⟨k + 1, hk⟩).input)
      ∧ (multiStepRecords { inputPath := "a.glb", draco := true, webp := true }
          ["draco", "webp"]).getLast?.map (fun r => r.output) =
          some (finalOutputPath { inputPath := "a.glb", draco := true, webp := true })) :=
  ⟨by decide, C7_step_chaining _ _ (by decide)⟩

/-- C10 counterexample: in a two-step execution the cleanup never runs (it
requires both `i > 0` and a non-final step), so the non-final first step's
intermediate file `a_step1_draco.glb` is never deleted — refuting "every
non-final step's intermediate is removed". -/
theorem C10_counterexample_last_intermediate_never_deleted :
    planExecutionSteps { inputPath := "a.glb", draco := true, webp := true } =
      ["draco", "webp"]
    ∧ ((multiStepRecords { inputPath := "a.glb", draco := true, webp := true }
        ["draco", "webp"]).map (fun r => r.output)) =
      ["a_step1_draco.glb", "a_processed.gltf"]
    ∧ ((multiStepRecords { inputPath := "a.glb", draco := true, webp := true }
        ["draco", "webp"]).filterMap (fun r => r.cleanup)) = [] := by
  refine ⟨by decide, by decide, by decide⟩

/-- C10 (amended): after step `k` the orchestrator best-effort deletes the
previous intermediate file (which is step `k`'s own input) exactly when
`k` is neither the first nor the last step and that file differs from the
request's original input path; in particular the first step and the last
step delete nothing, so the intermediate consumed by the final step is
never deleted, and the original input is never deleted. Deletion failures
are caught and logged in the source (`try`/`catch` with a `logger.warn`)
and cannot affect the returned result, which the pure trace reflects. -/
theorem C10_amended_cleanup_exactly_middle_steps (o : GltfTransformExecOptions)
    (steps : List String) (k : Nat) (hk : k < (multiStepRecords o steps).length) :
    ((multiStepRecords o steps).get ⟨k, hk⟩).cleanup =
      if 0 < k ∧ k + 1 < (multiStepRecords o steps).length ∧
          ((multiStepRecords o steps).get ⟨k, hk⟩).input ≠ o.inputPath
      then some (((multiStepRecords o steps).get ⟨k, hk⟩).input)
      else none := by
  simp only [multiStepRecords] at hk ⊢
  have := multiStepAux_cleanup o (pathDirname o.inputPath)
    (pathBasenameExt o.inputPath (pathExtname o.inputPath)) (pathExtname o.inputPath)
    (finalOutputPath o) steps 0 none o.inputPath (by intro h; omega) k hk
  simpa using this

/-- Witness for C10 (amended) at a concrete three-step request, middle step. -/
theorem C10_amended_witness :
    1 < (multiStepRecords { inputPath := "a.glb", draco := true, webp := true, dedup := true }
      ["draco", "webp", "dedup"]).length
    ∧ ((multiStepRecords { inputPath := "a.glb", draco := true, webp := true, dedup := true }
        ["draco", "webp", "dedup"]).get ⟨1, by decide⟩).cleanup =
      (if 0 < 1 ∧ 1 + 1 < (multiStepRecords
          { inputPath := "a.glb", draco := true, webp := true, dedup := true }
          ["draco", "webp", "dedup"]).length ∧
          ((multiStepRecords { inputPath := "a.glb", draco := true, webp := true, dedup := true }
            ["draco", "webp", "dedup"]).get ⟨1, by decide⟩).input ≠
            ({ inputPath := "a.glb", draco := true, webp := true, dedup := true } :
              GltfTransformExecOptions).inputPath
      then some (((multiStepRecords
          { inputPath := "a.glb", draco := true, webp := true, dedup := true }
          ["draco", "webp", "dedup"]).get ⟨1, by decide⟩).input)
      else none) :=
  ⟨by decide,
   C10_amended_cleanup_exactly_middle_steps
     { inputPath := "a.glb", draco := true, webp := true, dedup := true }
     ["draco", "webp", "dedup"] 1 (by decide)⟩

theorem pathJoin_factor (d x e : String) : ∃ stem, pathJoin d (x ++ e) = stem ++ e := by
  unfold pathJoin
  by_cases h1 : d = ""
  · exact ⟨x, by simp [h1]⟩
  by_cases h2 : d = "."
  · exact ⟨x, by simp [h1, h2]⟩
  by_cases h3 : strEndsWith d "/" = true
  · exact ⟨d ++ x, by simp [h1, h2, h3, String.append_assoc]⟩
  · exact ⟨d ++ "/" ++ x, by simp [h1, h2, h3, String.append_assoc]⟩

/-- C4 counterexample: for a request with no explicit `outputPath` whose
plan has two steps, the final (last-step) output path carries the
`_processed` suffix from `executeMultiStep`'s default, not the
`_transformed` suffix the claim states for both execution modes. -/
theorem C4_counterexample_multistep_default_suffix :
    planExecutionSteps { inputPath := "a.glb", outputFormat := some .glb, draco := true, webp := true } =
      ["draco", "webp"]
    ∧ ({ inputPath := "a.glb", outputFormat := some .glb, draco := true, webp := true } :
        GltfTransformExecOptions).outputPath = none
    ∧ (multiStepRecords { inputPath := "a.glb", outputFormat := some .glb, draco := true, webp := true }
        ["draco", "webp"]).getLast?.map (fun r => r.output) = some "a_processed.glb"
    ∧ ("a_processed.glb" : String) ≠ "a_transformed.glb" := by
  refine ⟨by decide, by decide, by decide, by decide⟩

/-- C4 (amended): for every request with no explicit `outputPath`, the
single-step builder derives `<dir>/<base>_transformed<ext>` while the last
step of a multi-step execution defaults to `<dir>/<base>_processed<ext>`;
in both cases the extension is `.glb` exactly when `outputFormat` is `glb`
or `binary` is set, and `.gltf` otherwise, and the resolved path ends in
that extension. -/
theorem C4_amended_default_output_paths (o : GltfTransformExecOptions)
    (h : o.outputPath = none) :
    buildCommandOutputPath o =
      pathJoin (pathDirname o.inputPath)
        (pathBasenameExt o.inputPath (pathExtname o.inputPath) ++ "_transformed" ++
          desiredExtFrom o.outputFormat o.binary)
    ∧ finalOutputPath o =
      pathJoin (pathDirname o.inputPath)
        (pathBasenameExt o.inputPath (pathExtname o.inputPath) ++ "_processed" ++
          desiredExtFrom o.outputFormat o.binary)
    ∧ (∃ stem, buildCommandOutputPath o = stem ++ desiredExtFrom o.outputFormat o.binary)
    ∧ (∃ stem, finalOutputPath o = stem ++ desiredExtFrom o.outputFormat o.binary)
    ∧ ((o.outputFormat = some .glb ∨ o.binary = true) →
        desiredExtFrom o.outputFormat o.binary = ".glb")
    ∧ (¬(o.outputFormat = some .glb ∨ o.binary = true) →
        desiredExtFrom o.outputFormat o.binary = ".gltf") := by
  have h1 : buildCommandOutputPath o =
      pathJoin (pathDirname o.inputPath)
        (pathBasenameExt o.inputPath (pathExtname o.inputPath) ++ "_transformed" ++
          desiredExtFrom o.outputFormat o.binary) := by
    simp [buildCommandOutputPath, jsOrElse, jsStrFalsy, h]
  have h2 : finalOutputPath o =
      pathJoin (pathDirname o.inputPath)
        (pathBasenameExt o.inputPath (pathExtname o.inputPath) ++ "_processed" ++
          desiredExtFrom o.outputFormat o.binary) := by
    simp [finalOutputPath, jsOrElse, jsStrFalsy, h]
  refine ⟨h1, h2, ?_, ?_, ?_, ?_⟩
  · rw [h1]
    exact pathJoin_factor _ _ _
  · rw [h2]
    exact pathJoin_factor _ _ _
  · intro hglb
    simp [desiredExtFrom, hglb, GLB_EXT]
  · intro hglb
    simp [desiredExtFrom, hglb, GLTF_EXT]

/-- Witness for C4 (amended) at a concrete request without `outputPath`. -/
theorem C4_amended_witness :
    ({ inputPath := "a.glb", binary := true, draco := true } :
      GltfTransformExecOptions).outputPath = none
    ∧ buildCommandOutputPath { inputPath := "a.glb", binary := true, draco := true } =
      "a_transformed.glb"
    ∧ finalOutputPath { inputPath := "a.glb", binary := true, draco := true } =
      "a_processed.glb" :=
  ⟨rfl,
   by have := (C4_amended_default_output_paths
        { inputPath := "a.glb", binary := true, draco := true } rfl).1
      rw [this]; decide,
   by have := (C4_amended_default_output_paths
        { inputPath := "a.glb", binary := true, draco := true } rfl).2.1
      rw [this]; decide⟩

theorem storeGet_storeSet (st : CacheStore) (k : String) (v : GltfProcessResult) :
    storeGet (storeSet st k v) k = some v := by
  simp [storeGet, storeSet, List.find?]

/-- C8: calling `process` twice with identical parameters (within the TTL
window, with the underlying execution deterministic) runs the underlying
execution at most once — if the first call succeeds, it stores its result
under the parameter-derived key, and the second call is a cache hit that
returns a success envelope with the same `data` without re-running. -/
theorem C8_cache_idempotence (w : ProcWorld) (o : GltfProcessOptions) (c0 : CacheStore)
    (h : (processModel w o c0).envelope.success = true) :
    (processModel w o (processModel w o c0).cache).envelope.success = true
    ∧ (processModel w o (processModel w o c0).cache).envelope.data =
        (processModel w o c0).envelope.data
    ∧ (processModel w o (processModel w o c0).cache).execRuns = 0
    ∧ (processModel w o c0).execRuns +
        (processModel w o (processModel w o c0).cache).execRuns ≤ 1 := by
  simp only [processModel] at h ⊢
  cases hget : storeGet c0
      (generateKey "gltf-process" (gltfProcessOptsToJson (resolveProcessOutputPath o))) with
  | some v => simp [hget]
  | none =>
    cases hrun : w.run (resolveProcessOutputPath o) with
    | ok res => simp [hget, hrun, storeGet_storeSet]
    | error msg => simp [hget, hrun] at h

/-- Concrete deterministic collaborator for the C8 witness. -/
def c8World : ProcWorld :=
  ⟨fun _ => .ok { inputPath := "m.glb", outputPath := "m_processed.gltf", format := .gltf, inputSize := 100, outputSize := 50 }⟩

/-- Witness for C8 at a concrete request against `c8World`. -/
theorem C8_cache_idempotence_witness :
    (processModel c8World { inputPath := "m.glb", optimize := true } []).envelope.success = true
    ∧ ((processModel c8World { inputPath := "m.glb", optimize := true }
        (processModel c8World { inputPath := "m.glb", optimize := true } []).cache).envelope.success = true
      ∧ (processModel c8World { inputPath := "m.glb", optimize := true }
          (processModel c8World { inputPath := "m.glb", optimize := true } []).cache).envelope.data =
          (processModel c8World { inputPath := "m.glb", optimize := true } []).envelope.data
      ∧ (processModel c8World { inputPath := "m.glb", optimize := true }
          (processModel c8World { inputPath := "m.glb", optimize := true } []).cache).execRuns = 0
      ∧ (processModel c8World { inputPath := "m.glb", optimize := true } []).execRuns +
          (processModel c8World { inputPath := "m.glb", optimize := true }
            (processModel c8World { inputPath := "m.glb", optimize := true } []).cache).execRuns ≤ 1) :=
  ⟨by rfl, C8_cache_idempotence c8World { inputPath := "m.glb", optimize := true } [] (by rfl)⟩
